import Mathlib

/-!
Verification of the Voice-Ai-Pipeline turn controller and frontend audio
utilities.

The repository ships the React frontend (`Frontend 2.0/src/App.tsx`, the
audio utilities module with `AudioRecorder` / `AudioPlayer` /
`float32ToInt16Base64`) together with design documents, an issue report and
production-log analyses for the Python backend; the backend orchestration
sources themselves (`backend/app/orchestration/turn_controller.py`,
`backend/app/llm/openai_client.py`, `backend/app/utils/telemetry.py`) are
not part of the tree.  The backend components are therefore modelled from
the specification, while the frontend components are embedded directly from
their TypeScript sources.
-/

namespace VoicePipeline

/-- Modelled from the spec: the five states of the turn-taking state
machine (`IDLE`, `LISTENING`, `SPECULATIVE`, `COMMITTED`, `SPEAKING`);
the implementing `backend/app/orchestration/state_machine.py` is not in
the tree. -/
inductive TurnState
  | idle
  | listening
  | speculative
  | committed
  | speaking
deriving DecidableEq, Repr

/-- Modelled from the spec: the outcome recorded for a closed turn. -/
inductive Outcome
  | completed
  | speculativelyCanceled
  | interrupted
  | llmFailed
  | ttsFailed
deriving DecidableEq, Repr

/-- Modelled from the spec: the observable actions of the controller —
messages to the client (`state_change`, transcripts, `agent_audio_chunk`,
`turn_complete`) and calls into the adapters (`ttsSend` hands a sentence
to the TTS adapter, `sttFinalize` is the `STTAdapter.finalize()` call). -/
inductive Msg
  | stateChange (src dst : TurnState)
  | transcriptInterim (text : String)
  | transcriptFinal (text : String)
  | agentAudioChunk (chunkIndex : Nat) (isFinal : Bool)
  | ttsSend (sentence : String)
  | sttFinalize
  | turnComplete (agentText : String) (wasInterrupted : Bool)
deriving DecidableEq, Repr

/-- Modelled from the spec: the events the per-session controller
multiplexes — client audio frames, STT interim/final transcripts, the
silence-timer deadline, LLM sentences and stream completion, TTS audio
chunks, the explicit interrupt message and the playback-complete
message. -/
inductive Event
  | audioFrame
  | interim (text : String)
  | finalTranscript (text : String)
  | timerFire
  | llmSentence (s : String)
  | llmComplete
  | ttsChunk (isFinal : Bool)
  | interruptMsg
  | playbackComplete
deriving DecidableEq, Repr

/-- Modelled from the spec: the per-turn record persisted on turn closure
(outcome, surfaced agent text, number of `agent_audio_chunk` messages
emitted during the turn, and the `was_interrupted` flag). -/
structure TurnRecord where
  outcome : Outcome
  agentText : String
  audioChunks : Nat
  wasInterrupted : Bool
deriving DecidableEq, Repr

/-- Modelled from the spec: the mutable state of the per-session turn
controller — current FSM state, adaptive debounce value, the two one-shot
cancellation signals, the speculative hold buffer of LLM sentences, the
surfaced agent text, the per-turn audio-chunk counter, the LLM-stream
completion flag, the silence-timer flag, the rolling window of recent turn
outcomes and the list of closed turn records (most recent first). -/
structure Ctrl where
  st : TurnState
  debounceMs : Nat
  llmCancel : Bool
  ttsCancel : Bool
  hold : List String
  agentText : String
  audioCount : Nat
  llmDone : Bool
  timerRunning : Bool
  recentOutcomes : List Outcome
  records : List TurnRecord
deriving DecidableEq, Repr

/-- Modelled from the spec: rolling cancellation rate
`r = speculatively_canceled / max(1, total)` over the supplied window of
recent turn outcomes.  The production log corroborates this formula: two
closed turns, both speculatively canceled, are reported as a 100.0%
cancellation rate. -/
def cancellationRate (recent : List Outcome) : ℚ :=
  (recent.countP (fun o => decide (o = Outcome.speculativelyCanceled)) : ℚ) /
    max 1 (recent.length : ℚ)

/-- Modelled from the spec: the adaptive debounce update applied after a
turn closure.  If the rate exceeds 0.30 the debounce grows by 50 ms capped
at 1200 ms; below 0.15 it shrinks by 25 ms floored at 400 ms; otherwise it
is unchanged.  The production log corroborates the +50 step
(`increasing debounce: 400ms -> 450ms`). -/
def updateDebounce (d : Nat) (r : ℚ) : Nat :=
  if 3 / 10 < r then min (d + 50) 1200
  else if r < 3 / 20 then max (d - 25) 400
  else d

/-- Modelled from the spec: closing the current turn — append the turn
record, push the outcome into the rolling window of the last 10 turns, run
the adaptive debounce update, reset the per-turn fields and move to the
given state. -/
def closeTurn (c : Ctrl) (o : Outcome) (intr : Bool) (dst : TurnState) : Ctrl :=
  let window := (o :: c.recentOutcomes).take 10
  { st := dst
    debounceMs := updateDebounce c.debounceMs (cancellationRate window)
    llmCancel := c.llmCancel
    ttsCancel := c.ttsCancel
    hold := []
    agentText := ""
    audioCount := 0
    llmDone := false
    timerRunning := false
    recentOutcomes := window
    records := { outcome := o, agentText := c.agentText,
                 audioChunks := c.audioCount,
                 wasInterrupted := intr } :: c.records }

/-- Modelled from the spec: the silent speculative cancel — set
`llm_cancel`, discard the hold buffer, mark the turn
`speculatively_canceled` and transition back to LISTENING emitting only the
`state_change` message (no audio, no agent text surfaced). -/
def speculativeCancel (c : Ctrl) : Ctrl × List Msg :=
  (closeTurn { c with llmCancel := true } Outcome.speculativelyCanceled false
      TurnState.listening,
   [Msg.stateChange TurnState.speculative TurnState.listening])

/-- Modelled from the spec: barge-in — set both `tts_cancel` and
`llm_cancel`, force `STTAdapter.finalize()`, close the outgoing turn with
`was_interrupted = true` and transition to LISTENING. -/
def bargeIn (c : Ctrl) : Ctrl × List Msg :=
  (closeTurn { c with llmCancel := true, ttsCancel := true } Outcome.interrupted
      true TurnState.listening,
   [Msg.sttFinalize, Msg.stateChange c.st TurnState.listening,
    Msg.turnComplete c.agentText true])

/-- Modelled from the spec: one dispatch of the per-session turn
controller (`backend/app/orchestration/turn_controller.py`, absent from the
tree).  A final transcript in LISTENING starts the silence timer and enters
SPECULATIVE; LLM sentences are held while SPECULATIVE; the timer firing
enters COMMITTED and flushes the hold buffer into TTS; later sentences are
forwarded to TTS immediately; the first TTS chunk enters SPEAKING; audio
activity or an interrupt during SPECULATIVE cancels silently, during
COMMITTED/SPEAKING it is a barge-in. -/
def step (c : Ctrl) (e : Event) : Ctrl × List Msg :=
  match e with
  | Event.audioFrame =>
    match c.st with
    | TurnState.idle =>
        ({ c with st := TurnState.listening },
         [Msg.stateChange TurnState.idle TurnState.listening])
    | TurnState.listening => (c, [])
    | TurnState.speculative => speculativeCancel c
    | TurnState.committed => bargeIn c
    | TurnState.speaking => bargeIn c
  | Event.interim t =>
    match c.st with
    | TurnState.speculative =>
        let r := speculativeCancel c
        (r.1, Msg.transcriptInterim t :: r.2)
    | _ => (c, [Msg.transcriptInterim t])
  | Event.finalTranscript t =>
    match c.st with
    | TurnState.listening =>
        ({ c with st := TurnState.speculative, timerRunning := true,
                  llmCancel := false, ttsCancel := false, hold := [],
                  agentText := "", audioCount := 0, llmDone := false },
         [Msg.transcriptFinal t,
          Msg.stateChange TurnState.listening TurnState.speculative])
    | TurnState.speculative =>
        let r := speculativeCancel c
        (r.1, Msg.transcriptFinal t :: r.2)
    | _ => (c, [])
  | Event.timerFire =>
    match c.st with
    | TurnState.speculative =>
        ({ c with st := TurnState.committed, timerRunning := false,
                  hold := [], agentText := String.join c.hold },
         Msg.stateChange TurnState.speculative TurnState.committed ::
           c.hold.map Msg.ttsSend)
    | _ => (c, [])
  | Event.llmSentence s =>
    if c.llmCancel then (c, [])
    else
      match c.st with
      | TurnState.speculative => ({ c with hold := c.hold ++ [s] }, [])
      | TurnState.committed =>
          ({ c with agentText := c.agentText ++ s }, [Msg.ttsSend s])
      | TurnState.speaking =>
          ({ c with agentText := c.agentText ++ s }, [Msg.ttsSend s])
      | _ => (c, [])
  | Event.llmComplete => ({ c with llmDone := true }, [])
  | Event.ttsChunk isFinal =>
    if c.ttsCancel then (c, [])
    else
      match c.st with
      | TurnState.committed =>
          ({ c with st := TurnState.speaking, audioCount := c.audioCount + 1 },
           [Msg.agentAudioChunk c.audioCount isFinal,
            Msg.stateChange TurnState.committed TurnState.speaking])
      | TurnState.speaking =>
          ({ c with audioCount := c.audioCount + 1 },
           [Msg.agentAudioChunk c.audioCount isFinal])
      | _ => (c, [])
  | Event.interruptMsg =>
    match c.st with
    | TurnState.speculative => speculativeCancel c
    | TurnState.committed => bargeIn c
    | TurnState.speaking => bargeIn c
    | _ => (c, [])
  | Event.playbackComplete =>
    match c.st with
    | TurnState.speaking =>
        (closeTurn c Outcome.completed false TurnState.idle,
         [Msg.turnComplete c.agentText false,
          Msg.stateChange TurnState.speaking TurnState.idle])
    | _ => (c, [])

/-- Modelled from the spec: the controller state at session start —
IDLE, 400 ms debounce, no pending work. -/
def initCtrl : Ctrl :=
  { st := TurnState.idle, debounceMs := 400, llmCancel := false,
    ttsCancel := false, hold := [], agentText := "", audioCount := 0,
    llmDone := false, timerRunning := false, recentOutcomes := [],
    records := [] }

/-- Modelled from the spec: running the controller over a list of events,
accumulating the emitted messages. -/
def runCtrl : Ctrl → List Event → Ctrl × List Msg
  | c, [] => (c, [])
  | c, e :: es =>
    let r := step c e
    let r2 := runCtrl r.1 es
    (r2.1, r.2 ++ r2.2)

/-! ### Sentence segmenter

Modelled from the spec: the sentence segmenter
(`backend/app/llm/openai_client.py` `stream_sentences`, absent from the
tree) consumes the LLM token stream character by character, terminates a
sentence when the running buffer ends in `.`, `?` or `!` and the next
character is whitespace, flushes the remainder when the stream closes, and
never emits an empty or punctuation-only sentence. -/

/-- Modelled from the spec: the three sentence-boundary characters. -/
def isBoundaryChar (c : Char) : Bool :=
  c == '.' || c == '?' || c == '!'

/-- Modelled from the spec: whitespace following a boundary character
terminates the sentence. -/
def isWhitespaceChar (c : Char) : Bool :=
  c == ' ' || c == '\n' || c == '\t' || c == '\r'

/-- Modelled from the spec: a buffer may be emitted as a sentence only if
it is neither empty nor made of boundary punctuation alone (the empty
buffer vacuously consists only of punctuation). -/
def emittable (b : List Char) : Bool :=
  !(b.all isBoundaryChar)

/-- Modelled from the spec: whether the running buffer currently ends in a
sentence-boundary character. -/
def endsWithBoundary (b : List Char) : Bool :=
  match b.getLast? with
  | some c => isBoundaryChar c
  | none => false

/-- Modelled from the spec: one character step of the segmenter.  On a
whitespace character following a boundary the buffer is emitted (if
emittable) and the separating whitespace is dropped; otherwise the
character is appended to the buffer. -/
def segStep (b : List Char) (c : Char) : List Char × Option (List Char) :=
  if endsWithBoundary b && isWhitespaceChar c then
    ([], if emittable b then some b else none)
  else (b ++ [c], none)

/-- Modelled from the spec: run the segmenter over the remaining input from
a given buffer, flushing the final buffer when the stream closes. -/
def streamSentences : List Char → List Char → List (List Char)
  | b, [] => if emittable b then [b] else []
  | b, c :: cs =>
    match segStep b c with
    | (b1, some s) => s :: streamSentences b1 cs
    | (b1, none) => streamSentences b1 cs

/-! ### Frontend audio player and client message handler

Embedded from `Frontend 2.0/src/App.tsx` and the audio utilities module
(the unnamed frontend source with `AudioRecorder`, `float32ToInt16Base64`
and `AudioPlayer`).  The player is modelled by the queue of enqueued audio
chunks together with the `isPlaying` / `isFinalized` flags; the
`MediaSource` plumbing is abstracted into the queue. -/

/-- State of the frontend `AudioPlayer`: `enqueued` is the audio queued for
playback since the last stream reset, with the playing and finalized
flags. -/
structure AudioPlayer where
  enqueued : List String
  isPlaying : Bool
  isFinalized : Bool
deriving DecidableEq, Repr

/-- Embedded from the source: `AudioPlayer.resetStream()` clears the queue,
the playing flag and the finalized flag (it also replaces the
`MediaSource`, discarding audio already appended to it). -/
def resetStream (_p : AudioPlayer) : AudioPlayer :=
  { enqueued := [], isPlaying := false, isFinalized := false }

/-- Embedded from the source: `AudioPlayer.addChunk(base64Audio)` returns
immediately on an empty payload, otherwise queues the chunk and starts
playback. -/
def addChunk (p : AudioPlayer) (audio : String) : AudioPlayer :=
  if audio = "" then p
  else { p with enqueued := p.enqueued ++ [audio], isPlaying := true }

/-- Embedded from the source: `AudioPlayer.finalize()` marks the stream
finalized. -/
def finalize (p : AudioPlayer) : AudioPlayer :=
  { p with isFinalized := true }

/-- Embedded from the source: `AudioPlayer.stop()` is exactly
`resetStream()` — it clears the queue and pending state and triggers no
callback. -/
def stop (p : AudioPlayer) : AudioPlayer :=
  resetStream p

/-- An `agent_audio_chunk` message as received by the client. -/
structure AudioChunkMsg where
  audio : String
  chunkIndex : Nat
  isFinal : Bool
deriving DecidableEq, Repr

/-- Embedded from the source: the `agent_audio_chunk` arm of `ws.onmessage`
in `App.tsx` — reset the stream on `chunk_index === 0`, enqueue the payload
only when it is non-empty and `is_final` is false, and finalize on
`is_final`. -/
def onAgentAudioChunk (p : AudioPlayer) (m : AudioChunkMsg) : AudioPlayer :=
  let p1 := if m.chunkIndex = 0 then resetStream p else p
  let p2 := if m.audio ≠ "" ∧ m.isFinal = false then addChunk p1 m.audio else p1
  if m.isFinal then finalize p2 else p2

/-- The externally triggered operations on the player: the message-handler
calls and the audio element's `ended` DOM event. -/
inductive PlayerEvent
  | addChunkEv (audio : String)
  | stopEv
  | finalizeEv
  | endedEv
deriving DecidableEq, Repr

/-- Observable player outputs: `onCompleteCall` is an invocation of the
registered `onComplete` callback, which in `App.tsx` sends the
`playback_complete` message to the server. -/
inductive PlayerOutput
  | onCompleteCall
deriving DecidableEq, Repr

/-- Embedded from the source: the player's reaction to each operation.
Only the `ended` listener installed in the constructor invokes
`onComplete`; `stop()` runs `resetStream()` and calls nothing. -/
def playerStep (p : AudioPlayer) : PlayerEvent → AudioPlayer × List PlayerOutput
  | PlayerEvent.addChunkEv a => (addChunk p a, [])
  | PlayerEvent.stopEv => (stop p, [])
  | PlayerEvent.finalizeEv => (finalize p, [])
  | PlayerEvent.endedEv => ({ p with isPlaying := false }, [PlayerOutput.onCompleteCall])

/-! ### PCM sample conversion

Embedded from the source: `float32ToInt16Base64` clamps each sample to
`[-1, 1]` and multiplies by `0x8000` when negative and `0x7fff` otherwise
before storing into an `Int16Array`.  The JavaScript arithmetic is exact
here — the sample is a 32-bit float widened to a binary64, and its product
with `0x8000` (a power of two) or `0x7fff` (15 bits) needs at most 39
significand bits — so the rational model below computes exactly the values
the source produces.  `Int16Array` assignment truncates toward zero and
then wraps modulo 2^16 into the signed 16-bit range. -/

/-- Embedded from the source: `Math.max(-1, Math.min(1, x))`. -/
def clampSample (x : ℚ) : ℚ :=
  max (-1) (min 1 x)

/-- Truncation toward zero, as in the ECMAScript ToInt16 conversion. -/
def ratTrunc (q : ℚ) : ℤ :=
  if q < 0 then ⌈q⌉ else ⌊q⌋

/-- Wrap an integer into the signed 16-bit range, as `Int16Array`
assignment does after truncation. -/
def toInt16 (i : ℤ) : ℤ :=
  if 32768 ≤ i % 65536 then i % 65536 - 65536 else i % 65536

/-- Embedded from the source: the per-sample body of the loop in
`float32ToInt16Base64` — clamp, scale by `0x8000` for negative samples and
`0x7fff` otherwise, and store as a 16-bit integer. -/
def sampleToInt16 (x : ℚ) : ℤ :=
  let s := clampSample x
  toInt16 (ratTrunc (if s < 0 then s * 32768 else s * 32767))

/-- Embedded from the source: the sample conversion applied to the whole
`Float32Array` (the subsequent base64 serialisation of the byte buffer is
not modelled). -/
def float32ToInt16 (xs : List ℚ) : List ℤ :=
  xs.map sampleToInt16

/-- Controller invariant: while a turn is still speculative nothing has
been surfaced, every recorded speculative cancellation is silent (empty
agent text, zero audio chunks), the rolling window never exceeds 10
outcomes, and the debounce stays within its bounds. -/
def Inv (c : Ctrl) : Prop :=
  (c.st = TurnState.speculative → c.agentText = "" ∧ c.audioCount = 0) ∧
  (∀ r ∈ c.records, r.outcome = Outcome.speculativelyCanceled →
      r.agentText = "" ∧ r.audioChunks = 0) ∧
  c.recentOutcomes.length ≤ 10 ∧
  400 ≤ c.debounceMs ∧ c.debounceMs ≤ 1200

/-! ## Theorems -/

theorem updateDebounce_bounds (d : Nat) (r : ℚ) (h1 : 400 ≤ d)
    (h2 : d ≤ 1200) :
    400 ≤ updateDebounce d r ∧ updateDebounce d r ≤ 1200 := by
  unfold updateDebounce
  split
  · omega
  · split <;> omega

theorem inv_closeTurn (c : Ctrl) (o : Outcome) (intr : Bool)
    (dst : TurnState) (hc : Inv c)
    (ho : o = Outcome.speculativelyCanceled →
        c.agentText = "" ∧ c.audioCount = 0) :
    Inv (closeTurn c o intr dst) := by
  obtain ⟨h1, h2, h3, h4, h5⟩ := hc
  refine ⟨fun _ => ⟨rfl, rfl⟩, ?_, ?_, ?_, ?_⟩
  · intro r hr hro
    rcases List.mem_cons.mp hr with h | h
    · subst h
      exact ho hro
    · exact h2 r h hro
  · exact List.length_take_le 10 _
  · exact (updateDebounce_bounds c.debounceMs _ h4 h5).1
  · exact (updateDebounce_bounds c.debounceMs _ h4 h5).2

theorem inv_step (c : Ctrl) (e : Event) (hc : Inv c) : Inv (step c e).1 := by
  obtain ⟨st, deb, lc, tc, hold, atx, ac, ld, tr, ro, recs⟩ := c
  obtain ⟨h1, h2, h3, h4, h5⟩ := hc
  cases e with
  | audioFrame =>
    cases st with
    | idle => exact ⟨fun h => TurnState.noConfusion h, h2, h3, h4, h5⟩
    | listening => exact ⟨h1, h2, h3, h4, h5⟩
    | speculative =>
      exact inv_closeTurn _ _ _ _ ⟨h1, h2, h3, h4, h5⟩ (fun _ => h1 rfl)
    | committed =>
      exact inv_closeTurn _ _ _ _ ⟨h1, h2, h3, h4, h5⟩
        (fun h => Outcome.noConfusion h)
    | speaking =>
      exact inv_closeTurn _ _ _ _ ⟨h1, h2, h3, h4, h5⟩
        (fun h => Outcome.noConfusion h)
  | interim t =>
    cases st with
    | speculative =>
      exact inv_closeTurn _ _ _ _ ⟨h1, h2, h3, h4, h5⟩ (fun _ => h1 rfl)
    | idle => exact ⟨h1, h2, h3, h4, h5⟩
    | listening => exact ⟨h1, h2, h3, h4, h5⟩
    | committed => exact ⟨h1, h2, h3, h4, h5⟩
    | speaking => exact ⟨h1, h2, h3, h4, h5⟩
  | finalTranscript t =>
    cases st with
    | listening => exact ⟨fun _ => ⟨rfl, rfl⟩, h2, h3, h4, h5⟩
    | speculative =>
      exact inv_closeTurn _ _ _ _ ⟨h1, h2, h3, h4, h5⟩ (fun _ => h1 rfl)
    | idle => exact ⟨h1, h2, h3, h4, h5⟩
    | committed => exact ⟨h1, h2, h3, h4, h5⟩
    | speaking => exact ⟨h1, h2, h3, h4, h5⟩
  | timerFire =>
    cases st with
    | speculative => exact ⟨fun h => TurnState.noConfusion h, h2, h3, h4, h5⟩
    | idle => exact ⟨h1, h2, h3, h4, h5⟩
    | listening => exact ⟨h1, h2, h3, h4, h5⟩
    | committed => exact ⟨h1, h2, h3, h4, h5⟩
    | speaking => exact ⟨h1, h2, h3, h4, h5⟩
  | llmSentence s =>
    cases lc with
    | true => exact ⟨h1, h2, h3, h4, h5⟩
    | false =>
      cases st with
      | idle => exact ⟨h1, h2, h3, h4, h5⟩
      | listening => exact ⟨h1, h2, h3, h4, h5⟩
      | speculative => exact ⟨fun _ => h1 rfl, h2, h3, h4, h5⟩
      | committed => exact ⟨fun h => TurnState.noConfusion h, h2, h3, h4, h5⟩
      | speaking => exact ⟨fun h => TurnState.noConfusion h, h2, h3, h4, h5⟩
  | llmComplete =>
    exact ⟨fun h => h1 h, h2, h3, h4, h5⟩
  | ttsChunk isFinal =>
    cases tc with
    | true => exact ⟨h1, h2, h3, h4, h5⟩
    | false =>
      cases st with
      | idle => exact ⟨h1, h2, h3, h4, h5⟩
      | listening => exact ⟨h1, h2, h3, h4, h5⟩
      | speculative => exact ⟨h1, h2, h3, h4, h5⟩
      | committed => exact ⟨fun h => TurnState.noConfusion h, h2, h3, h4, h5⟩
      | speaking => exact ⟨fun h => TurnState.noConfusion h, h2, h3, h4, h5⟩
  | interruptMsg =>
    cases st with
    | idle => exact ⟨h1, h2, h3, h4, h5⟩
    | listening => exact ⟨h1, h2, h3, h4, h5⟩
    | speculative =>
      exact inv_closeTurn _ _ _ _ ⟨h1, h2, h3, h4, h5⟩ (fun _ => h1 rfl)
    | committed =>
      exact inv_closeTurn _ _ _ _ ⟨h1, h2, h3, h4, h5⟩
        (fun h => Outcome.noConfusion h)
    | speaking =>
      exact inv_closeTurn _ _ _ _ ⟨h1, h2, h3, h4, h5⟩
        (fun h => Outcome.noConfusion h)
  | playbackComplete =>
    cases st with
    | idle => exact ⟨h1, h2, h3, h4, h5⟩
    | listening => exact ⟨h1, h2, h3, h4, h5⟩
    | speculative => exact ⟨h1, h2, h3, h4, h5⟩
    | committed => exact ⟨h1, h2, h3, h4, h5⟩
    | speaking =>
      exact inv_closeTurn _ _ _ _ ⟨h1, h2, h3, h4, h5⟩
        (fun h => Outcome.noConfusion h)

theorem inv_init : Inv initCtrl := by
  refine ⟨fun h => TurnState.noConfusion h, ?_, ?_, ?_, ?_⟩ <;>
    simp [initCtrl]

theorem inv_run (events : List Event) : Inv (runCtrl initCtrl events).1 := by
  suffices h : ∀ (c : Ctrl), Inv c → Inv (runCtrl c events).1 from
    h initCtrl inv_init
  induction events with
  | nil => exact fun c hc => hc
  | cons e es ih => exact fun c hc => ih _ (inv_step c e hc)

/-- C1: in every run of the controller, every turn recorded with outcome
`speculatively_canceled` has an empty surfaced agent text and zero
`agent_audio_chunk` messages emitted during the turn; moreover no dispatch
taken from the SPECULATIVE state ever emits an `agent_audio_chunk` or a
`turn_complete` message, so the speculative LLM output held internally is
discarded on cancel and never reaches the client. -/
theorem speculativelyCanceled_turns_emit_no_output :
    (∀ (events : List Event) (r : TurnRecord),
        r ∈ (runCtrl initCtrl events).1.records →
        r.outcome = Outcome.speculativelyCanceled →
        r.agentText = "" ∧ r.audioChunks = 0) ∧
    (∀ (c : Ctrl) (e : Event) (m : Msg), c.st = TurnState.speculative →
        m ∈ (step c e).2 →
        (∀ i b, m ≠ Msg.agentAudioChunk i b) ∧
        (∀ t w, m ≠ Msg.turnComplete t w)) := by
  constructor
  · intro events r hr hro
    exact (inv_run events).2.1 r hr hro
  · intro c e m hst hm
    obtain ⟨st, deb, lc, tc, hold, atx, ac, ld, tr, ro, recs⟩ := c
    subst hst
    constructor
    · intro i b hmeq
      subst hmeq
      cases e <;> cases lc <;> cases tc <;>
        simp [step, speculativeCancel] at hm
    · intro t w hmeq
      subst hmeq
      cases e <;> cases lc <;> cases tc <;>
        simp [step, speculativeCancel] at hm

theorem speculativelyCanceled_turns_emit_no_output_witness :
    (({ outcome := Outcome.speculativelyCanceled, agentText := "",
        audioChunks := 0, wasInterrupted := false } : TurnRecord) ∈
      (runCtrl initCtrl [Event.audioFrame,
          Event.finalTranscript "I want to book", Event.llmSentence "Sure.",
          Event.audioFrame]).1.records) ∧
    ("" : String) = "" ∧ (0 : Nat) = 0 ∧
    Msg.stateChange TurnState.speculative TurnState.listening ≠
      Msg.agentAudioChunk 0 true := by
  have hmem :
      ({ outcome := Outcome.speculativelyCanceled, agentText := "",
         audioChunks := 0, wasInterrupted := false } : TurnRecord) ∈
        (runCtrl initCtrl [Event.audioFrame,
            Event.finalTranscript "I want to book", Event.llmSentence "Sure.",
            Event.audioFrame]).1.records := by decide
  refine ⟨hmem,
    (speculativelyCanceled_turns_emit_no_output.1 _ _ hmem rfl).1,
    (speculativelyCanceled_turns_emit_no_output.1 _ _ hmem rfl).2, ?_⟩
  exact (speculativelyCanceled_turns_emit_no_output.2
    ({ initCtrl with st := TurnState.speculative }) Event.audioFrame _
    rfl (by simp [step, speculativeCancel, initCtrl])).1 0 true

/-- C2: on COMMITTED entry (the silence timer firing in SPECULATIVE) the
controller hands the held sentences — the first held sentence foremost —
to the TTS adapter in that very dispatch, and while COMMITTED each further
LLM sentence is forwarded to TTS the moment it arrives even though the LLM
stream has not completed (`llmDone = false`): the controller does not wait
for the full LLM response before starting TTS. -/
theorem committed_entry_streams_sentences_to_tts :
    (∀ c : Ctrl, c.st = TurnState.speculative →
        (step c Event.timerFire).1.st = TurnState.committed ∧
        (step c Event.timerFire).2 =
          Msg.stateChange TurnState.speculative TurnState.committed ::
            c.hold.map Msg.ttsSend) ∧
    (∀ (c : Ctrl) (s : String), c.st = TurnState.committed →
        c.llmCancel = false → c.llmDone = false →
        (step c (Event.llmSentence s)).1.st = TurnState.committed ∧
        (step c (Event.llmSentence s)).2 = [Msg.ttsSend s]) := by
  constructor
  · intro c hst
    obtain ⟨st, deb, lc, tc, hold, atx, ac, ld, tr, ro, recs⟩ := c
    subst hst
    exact ⟨rfl, rfl⟩
  · intro c s hst hlc hld
    obtain ⟨st, deb, lc, tc, hold, atx, ac, ld, tr, ro, recs⟩ := c
    subst hst
    subst hlc
    exact ⟨rfl, rfl⟩

theorem committed_entry_streams_sentences_to_tts_witness :
    (step { initCtrl with st := TurnState.speculative,
                          hold := ["Hi there.", "How can I help?"] }
        Event.timerFire).2 =
      [Msg.stateChange TurnState.speculative TurnState.committed,
       Msg.ttsSend "Hi there.", Msg.ttsSend "How can I help?"] ∧
    (step { initCtrl with st := TurnState.committed }
        (Event.llmSentence "One moment.")).2 =
      [Msg.ttsSend "One moment."] := by
  exact ⟨(committed_entry_streams_sentences_to_tts.1 _ rfl).2,
    (committed_entry_streams_sentences_to_tts.2 _ _ rfl rfl rfl).2⟩

/-- C3: a final transcript arriving in LISTENING starts the silence timer
and is exactly the step that enters SPECULATIVE; the timer firing in
SPECULATIVE is exactly the transition SPECULATIVE → COMMITTED; the timer
firing in LISTENING does nothing (no LISTENING → SPECULATIVE on fire); and
LLM output (a sentence or stream completion) never changes the state, so
the COMMITTED transition is never triggered by LLM output. -/
theorem silence_timer_drives_speculative_and_committed :
    (∀ (c : Ctrl) (t : String), c.st = TurnState.listening →
        (step c (Event.finalTranscript t)).1.st = TurnState.speculative ∧
        (step c (Event.finalTranscript t)).1.timerRunning = true ∧
        Msg.stateChange TurnState.listening TurnState.speculative ∈
          (step c (Event.finalTranscript t)).2) ∧
    (∀ c : Ctrl, c.st = TurnState.speculative →
        (step c Event.timerFire).1.st = TurnState.committed ∧
        Msg.stateChange TurnState.speculative TurnState.committed ∈
          (step c Event.timerFire).2) ∧
    (∀ c : Ctrl, c.st = TurnState.listening →
        step c Event.timerFire = (c, [])) ∧
    (∀ (c : Ctrl) (s : String), c.st = TurnState.speculative →
        (step c (Event.llmSentence s)).1.st = TurnState.speculative) ∧
    (∀ c : Ctrl, (step c Event.llmComplete).1.st = c.st) := by
  refine ⟨?_, ?_, ?_, ?_, ?_⟩
  · intro c t hst
    obtain ⟨st, deb, lc, tc, hold, atx, ac, ld, tr, ro, recs⟩ := c
    subst hst
    exact ⟨rfl, rfl, by simp [step]⟩
  · intro c hst
    obtain ⟨st, deb, lc, tc, hold, atx, ac, ld, tr, ro, recs⟩ := c
    subst hst
    exact ⟨rfl, by simp [step]⟩
  · intro c hst
    obtain ⟨st, deb, lc, tc, hold, atx, ac, ld, tr, ro, recs⟩ := c
    subst hst
    rfl
  · intro c s hst
    obtain ⟨st, deb, lc, tc, hold, atx, ac, ld, tr, ro, recs⟩ := c
    subst hst
    cases lc <;> rfl
  · intro c
    obtain ⟨st, deb, lc, tc, hold, atx, ac, ld, tr, ro, recs⟩ := c
    rfl

theorem silence_timer_drives_speculative_and_committed_witness :
    (step { initCtrl with st := TurnState.listening }
        (Event.finalTranscript "Hello there")).1.st =
      TurnState.speculative ∧
    (step { initCtrl with st := TurnState.speculative }
        Event.timerFire).1.st = TurnState.committed ∧
    step { initCtrl with st := TurnState.listening } Event.timerFire =
      ({ initCtrl with st := TurnState.listening }, []) := by
  exact ⟨(silence_timer_drives_speculative_and_committed.1 _
      "Hello there" rfl).1,
    (silence_timer_drives_speculative_and_committed.2.1 _ rfl).1,
    silence_timer_drives_speculative_and_committed.2.2.1 _ rfl⟩

/-- C7: an audio frame, and likewise an explicit interrupt message,
arriving while the state is SPEAKING sets both `tts_cancel` and
`llm_cancel`, calls `STTAdapter.finalize()`, transitions SPEAKING →
LISTENING, and closes the outgoing turn with `was_interrupted = true`. -/
theorem barge_in_during_speaking_cancels_and_marks_interrupted :
    ∀ c : Ctrl, c.st = TurnState.speaking →
      ((step c Event.audioFrame).1.ttsCancel = true ∧
       (step c Event.audioFrame).1.llmCancel = true ∧
       Msg.sttFinalize ∈ (step c Event.audioFrame).2 ∧
       (step c Event.audioFrame).1.st = TurnState.listening ∧
       (step c Event.audioFrame).1.records =
         { outcome := Outcome.interrupted, agentText := c.agentText,
           audioChunks := c.audioCount, wasInterrupted := true } ::
           c.records) ∧
      ((step c Event.interruptMsg).1.ttsCancel = true ∧
       (step c Event.interruptMsg).1.llmCancel = true ∧
       Msg.sttFinalize ∈ (step c Event.interruptMsg).2 ∧
       (step c Event.interruptMsg).1.st = TurnState.listening ∧
       (step c Event.interruptMsg).1.records =
         { outcome := Outcome.interrupted, agentText := c.agentText,
           audioChunks := c.audioCount, wasInterrupted := true } ::
           c.records) := by
  intro c hst
  obtain ⟨st, deb, lc, tc, hold, atx, ac, ld, tr, ro, recs⟩ := c
  subst hst
  exact ⟨⟨rfl, rfl, List.mem_cons_self _ _, rfl, rfl⟩,
    ⟨rfl, rfl, List.mem_cons_self _ _, rfl, rfl⟩⟩

theorem barge_in_during_speaking_cancels_and_marks_interrupted_witness :
    (step { initCtrl with st := TurnState.speaking, agentText := "Hi.",
                          audioCount := 2 }
        Event.audioFrame).1.ttsCancel = true ∧
    (step { initCtrl with st := TurnState.speaking, agentText := "Hi.",
                          audioCount := 2 }
        Event.interruptMsg).1.records =
      [{ outcome := Outcome.interrupted, agentText := "Hi.",
         audioChunks := 2, wasInterrupted := true }] := by
  have h := barge_in_during_speaking_cancels_and_marks_interrupted
    { initCtrl with
        st := TurnState.speaking, agentText := "Hi.", audioCount := 2 } rfl
  exact ⟨h.1.1, h.2.2.2.2.2⟩

/-- C4: after every turn closure the debounce equals the reference update
of the previous debounce by the rolling cancellation rate: rate above 0.30
gives min(debounce + 50, 1200), rate below 0.15 gives
max(debounce - 25, 400), and otherwise the debounce is unchanged; in
particular from 400 ms with r > 0.30 the next value is 450 ms and at
1200 ms it stays 1200 ms, and along every run the debounce remains within
[400, 1200]. -/
theorem adaptive_debounce_update_matches_reference :
    (∀ (c : Ctrl) (o : Outcome) (intr : Bool) (dst : TurnState),
        (closeTurn c o intr dst).debounceMs =
          updateDebounce c.debounceMs
            (cancellationRate ((o :: c.recentOutcomes).take 10))) ∧
    (∀ (d : Nat) (r : ℚ),
        (3 / 10 < r → updateDebounce d r = min (d + 50) 1200) ∧
        (r < 3 / 20 → updateDebounce d r = max (d - 25) 400) ∧
        (¬ 3 / 10 < r → ¬ r < 3 / 20 → updateDebounce d r = d)) ∧
    (∀ r : ℚ, 3 / 10 < r →
        updateDebounce 400 r = 450 ∧ updateDebounce 1200 r = 1200) ∧
    (∀ events : List Event,
        400 ≤ (runCtrl initCtrl events).1.debounceMs ∧
        (runCtrl initCtrl events).1.debounceMs ≤ 1200) := by
  refine ⟨fun c o intr dst => rfl, ?_, ?_, ?_⟩
  · intro d r
    refine ⟨fun h => by simp [updateDebounce, h], fun h => ?_,
      fun h1 h2 => by simp [updateDebounce, h1, h2]⟩
    have h1 : ¬ 3 / 10 < r := by linarith
    simp [updateDebounce, h1, h]
  · intro r h
    constructor <;> simp [updateDebounce, h]
  · intro events
    exact ⟨(inv_run events).2.2.2.1, (inv_run events).2.2.2.2⟩

theorem adaptive_debounce_update_matches_reference_witness :
    updateDebounce 400 (2 / 5 : ℚ) = 450 ∧
    updateDebounce 1200 (2 / 5 : ℚ) = 1200 ∧
    updateDebounce 500 (1 / 10 : ℚ) = 475 := by
  have h := adaptive_debounce_update_matches_reference.2.2.1 (2 / 5 : ℚ)
    (by norm_num)
  have h2 := (adaptive_debounce_update_matches_reference.2.1 500
    (1 / 10 : ℚ)).2.1 (by norm_num)
  exact ⟨h.1, h.2, by rw [h2]; rfl⟩

/-- C5: the rolling cancellation rate used by the adaptive debounce
controller is the count of `speculatively_canceled` outcomes divided by
max(1, total) over the stored window; the controller stores exactly the
last 10 closed turns (after any closure the window is the 10 most recent
outcomes, and its length never exceeds 10, covering runs with fewer than
10 recorded turns); and barge-in `interrupted` outcomes never contribute
to the numerator. -/
theorem cancellation_rate_over_last_ten_turns :
    (∀ w : List Outcome,
        cancellationRate w =
          (w.countP
            (fun o => decide (o = Outcome.speculativelyCanceled)) : ℚ) /
            max 1 (w.length : ℚ)) ∧
    (∀ (c : Ctrl) (o : Outcome) (intr : Bool) (dst : TurnState),
        (closeTurn c o intr dst).recentOutcomes =
          (o :: c.recentOutcomes).take 10 ∧
        (closeTurn c o intr dst).debounceMs =
          updateDebounce c.debounceMs
            (cancellationRate ((o :: c.recentOutcomes).take 10))) ∧
    (∀ events : List Event,
        (runCtrl initCtrl events).1.recentOutcomes.length ≤ 10) ∧
    (∀ w : List Outcome,
        (Outcome.interrupted :: w).countP
            (fun o => decide (o = Outcome.speculativelyCanceled)) =
          w.countP (fun o => decide (o = Outcome.speculativelyCanceled))) := by
  refine ⟨fun w => rfl, fun c o intr dst => ⟨rfl, rfl⟩, ?_, ?_⟩
  · intro events
    exact (inv_run events).2.2.1
  · intro w
    simp [List.countP_cons]

theorem segStep_some_eq {b : List Char} {c : Char} {b1 s : List Char}
    (h : segStep b c = (b1, some s)) : s = b ∧ emittable b = true := by
  unfold segStep at h
  split at h
  · split at h
    · obtain ⟨h1, h2⟩ := Prod.mk.injEq .. ▸ h
      exact ⟨(Option.some.injEq .. ▸ h2).symm, by assumption⟩
    · simp at h
  · simp at h

theorem streamSentences_emittable :
    ∀ (cs b s : List Char), s ∈ streamSentences b cs → emittable s = true := by
  intro cs
  induction cs with
  | nil =>
    intro b s hs
    rw [streamSentences] at hs
    split at hs
    · rw [List.mem_singleton] at hs
      subst hs
      assumption
    · exact absurd hs (List.not_mem_nil s)
  | cons c cs ih =>
    intro b s hs
    rw [streamSentences] at hs
    rcases hseg : segStep b c with ⟨b1, os⟩
    rw [hseg] at hs
    cases os with
    | some s1 =>
      simp only [List.mem_cons] at hs
      rcases hs with h | h
      · subst h
        rcases segStep_some_eq hseg with ⟨hsb, he⟩
        rw [hsb]
        exact he
      · exact ih b1 s h
    | none => exact ih b1 s hs

/-- C6: one character step of the segmenter emits a sentence exactly when
the running buffer ends in '.', '?' or '!', the incoming character is
whitespace and the buffer is not degenerate; a boundary character not
followed by whitespace — such as the '.' inside "3.5" — never terminates a
sentence; the remaining buffer is flushed when the stream closes; and
every emitted sentence is non-empty and never consists of boundary
punctuation alone. -/
theorem sentence_segmenter_boundary_and_flush :
    (∀ (b : List Char) (c : Char),
        (segStep b c).2.isSome =
          (endsWithBoundary b && isWhitespaceChar c && emittable b)) ∧
    (∀ (b : List Char) (c : Char), isWhitespaceChar c = false →
        segStep b c = (b ++ [c], none)) ∧
    (∀ b : List Char,
        streamSentences b [] = if emittable b then [b] else []) ∧
    (∀ (cs b s : List Char), s ∈ streamSentences b cs →
        s ≠ [] ∧ s.all isBoundaryChar = false) := by
  refine ⟨?_, ?_, fun b => rfl, ?_⟩
  · intro b c
    cases hb : endsWithBoundary b <;> cases hw : isWhitespaceChar c <;>
      cases he : emittable b <;> simp [segStep, hb, hw, he]
  · intro b c hw
    simp [segStep, hw]
  · intro cs b s hs
    have he := streamSentences_emittable cs b s hs
    refine ⟨?_, ?_⟩
    · intro hnil
      subst hnil
      simp [emittable] at he
    · simpa [emittable] using he

theorem sentence_segmenter_boundary_and_flush_witness :
    isWhitespaceChar '5' = false ∧
    segStep ['3', '.'] '5' = (['3', '.', '5'], none) ∧
    streamSentences [] "3.5 is big. Yes!".data =
      ["3.5 is big.".data, "Yes!".data] ∧
    "3.5 is big.".data ≠ [] ∧
    List.all "3.5 is big.".data isBoundaryChar = false := by
  have hrun : streamSentences [] "3.5 is big. Yes!".data =
      ["3.5 is big.".data, "Yes!".data] := by decide
  have hmem : "3.5 is big.".data ∈ streamSentences [] "3.5 is big. Yes!".data := by
    rw [hrun]
    exact List.mem_cons_self _ _
  have h4 := sentence_segmenter_boundary_and_flush.2.2.2 _ _ _ hmem
  exact ⟨by decide,
    sentence_segmenter_boundary_and_flush.2.1 ['3', '.'] '5' (by decide),
    hrun, h4.1, h4.2⟩

/-- C8: in the client's `agent_audio_chunk` handler the audio payload is
enqueued for playback only when `is_final` is false — a final chunk's
audio is dropped and the chunk only triggers finalization — and a chunk
with `chunk_index` 0 resets the audio stream, discarding all previously
queued audio. -/
theorem final_chunk_audio_dropped_and_index_zero_resets :
    (∀ (p : AudioPlayer) (m : AudioChunkMsg), m.isFinal = true →
        (onAgentAudioChunk p m).enqueued =
          (if m.chunkIndex = 0 then ([] : List String) else p.enqueued) ∧
        (onAgentAudioChunk p m).isFinalized = true) ∧
    (∀ (p : AudioPlayer) (m : AudioChunkMsg), m.isFinal = false →
        m.chunkIndex = 0 →
        (onAgentAudioChunk p m).enqueued =
          (if m.audio = "" then [] else [m.audio])) ∧
    (∀ (p : AudioPlayer) (m : AudioChunkMsg), m.isFinal = false →
        m.chunkIndex ≠ 0 →
        (onAgentAudioChunk p m).enqueued =
          p.enqueued ++ (if m.audio = "" then [] else [m.audio])) := by
  refine ⟨?_, ?_, ?_⟩
  · intro p m hf
    obtain ⟨a, idx, fin⟩ := m
    subst hf
    by_cases hi : idx = 0 <;>
      simp [onAgentAudioChunk, resetStream, finalize, addChunk, hi]
  · intro p m hf hi
    obtain ⟨a, idx, fin⟩ := m
    subst hf
    subst hi
    by_cases ha : a = "" <;>
      simp [onAgentAudioChunk, resetStream, finalize, addChunk, ha]
  · intro p m hf hi
    obtain ⟨a, idx, fin⟩ := m
    subst hf
    by_cases ha : a = "" <;>
      simp [onAgentAudioChunk, resetStream, finalize, addChunk, ha, hi]

theorem final_chunk_audio_dropped_and_index_zero_resets_witness :
    (onAgentAudioChunk
        { enqueued := ["x"], isPlaying := true, isFinalized := false }
        { audio := "y", chunkIndex := 3, isFinal := true }).enqueued
      = ["x"] ∧
    (onAgentAudioChunk
        { enqueued := ["x"], isPlaying := true, isFinalized := false }
        { audio := "y", chunkIndex := 3, isFinal := true }).isFinalized
      = true ∧
    (onAgentAudioChunk
        { enqueued := ["x"], isPlaying := true, isFinalized := false }
        { audio := "z", chunkIndex := 0, isFinal := false }).enqueued
      = ["z"] := by
  have h1 := final_chunk_audio_dropped_and_index_zero_resets.1
    { enqueued := ["x"], isPlaying := true, isFinalized := false }
    { audio := "y", chunkIndex := 3, isFinal := true } rfl
  have h2 := final_chunk_audio_dropped_and_index_zero_resets.2.1
    { enqueued := ["x"], isPlaying := true, isFinalized := false }
    { audio := "z", chunkIndex := 0, isFinal := false } rfl rfl
  exact ⟨by rw [h1.1]; rfl, h1.2, by rw [h2]; rfl⟩

/-- C9: `AudioPlayer.stop()` clears the playback queue and the pending
flags and invokes no callback, and the `onComplete` callback — wired in
`App.tsx` to send `playback_complete` to the server — is invoked only by
the audio element's `ended` event, so a barge-in stop never produces a
`playback_complete` message. -/
theorem stop_never_fires_onComplete :
    (∀ p : AudioPlayer, playerStep p PlayerEvent.stopEv =
        ({ enqueued := [], isPlaying := false, isFinalized := false },
         [])) ∧
    (∀ (p : AudioPlayer) (e : PlayerEvent),
        PlayerOutput.onCompleteCall ∈ (playerStep p e).2 →
        e = PlayerEvent.endedEv) := by
  refine ⟨fun p => rfl, ?_⟩
  intro p e hm
  cases e with
  | endedEv => rfl
  | addChunkEv a => simp [playerStep, addChunk] at hm
  | stopEv => simp [playerStep, stop, resetStream] at hm
  | finalizeEv => simp [playerStep, finalize] at hm

theorem stop_never_fires_onComplete_witness :
    playerStep
        { enqueued := ["a", "b"], isPlaying := true, isFinalized := true }
        PlayerEvent.stopEv =
      ({ enqueued := [], isPlaying := false, isFinalized := false }, []) ∧
    PlayerEvent.endedEv = PlayerEvent.endedEv := by
  exact ⟨stop_never_fires_onComplete.1 _,
    stop_never_fires_onComplete.2
      { enqueued := [], isPlaying := false, isFinalized := false }
      PlayerEvent.endedEv (by decide)⟩

theorem toInt16_eq_self {i : ℤ} (h1 : -32768 ≤ i) (h2 : i ≤ 32767) :
    toInt16 i = i := by
  unfold toInt16
  omega

theorem clampSample_mem (x : ℚ) : -1 ≤ clampSample x ∧ clampSample x ≤ 1 := by
  unfold clampSample
  refine ⟨le_max_left _ _, max_le (by norm_num) (min_le_left _ _)⟩

theorem ceil_neg_thirtytwo_k : ⌈(-32768 : ℚ)⌉ = (-32768 : ℤ) := by
  rw [show (-32768 : ℚ) = ((-32768 : ℤ) : ℚ) by norm_num, Int.ceil_intCast]

theorem floor_int16_top : ⌊(32767 : ℚ)⌋ = (32767 : ℤ) := by
  rw [show (32767 : ℚ) = ((32767 : ℤ) : ℚ) by norm_num, Int.floor_intCast]

theorem scaled_sample_bounds (x : ℚ) :
    -32768 ≤ ratTrunc (if clampSample x < 0 then clampSample x * 32768
        else clampSample x * 32767) ∧
    ratTrunc (if clampSample x < 0 then clampSample x * 32768
        else clampSample x * 32767) ≤ 32767 := by
  obtain ⟨hl, hr⟩ := clampSample_mem x
  by_cases hs : clampSample x < 0
  · rw [if_pos hs]
    have hq0 : clampSample x * 32768 ≤ 0 :=
      le_of_lt (mul_neg_of_neg_of_pos hs (by norm_num))
    have hql : (-32768 : ℚ) ≤ clampSample x * 32768 := by nlinarith
    have htr : ratTrunc (clampSample x * 32768) =
        ⌈clampSample x * 32768⌉ := by
      unfold ratTrunc
      rcases lt_or_eq_of_le hq0 with h | h
      · rw [if_pos h]
      · rw [h]
        simp
    rw [htr]
    constructor
    · have h := Int.ceil_le_ceil (α := ℚ) hql
      rw [ceil_neg_thirtytwo_k] at h
      exact h
    · have h0 : ⌈clampSample x * 32768⌉ ≤ 0 := Int.ceil_le.mpr (by
        simpa using hq0)
      omega
  · rw [if_neg hs]
    push_neg at hs
    have hq0 : (0 : ℚ) ≤ clampSample x * 32767 := by nlinarith
    have hqh : clampSample x * 32767 ≤ 32767 := by nlinarith
    have htr : ratTrunc (clampSample x * 32767) =
        ⌊clampSample x * 32767⌋ := by
      unfold ratTrunc
      rw [if_neg (not_lt.mpr hq0)]
    rw [htr]
    constructor
    · have h0 : (0 : ℤ) ≤ ⌊clampSample x * 32767⌋ :=
        Int.le_floor.mpr (by simpa using hq0)
      omega
    · have h := Int.floor_le_floor (α := ℚ) hqh
      rw [floor_int16_top] at h
      exact h

/-- C10: `float32ToInt16Base64` encodes each sample s as the
round-toward-zero integer part of clamp(s, -1, 1) times 0x8000 when the
clamped sample is negative and times 0x7fff otherwise — the 16-bit store
never wraps — so every encoded value lies in [-32768, 32767] and inputs
outside [-1, 1] saturate to the extremes. -/
theorem float32_samples_saturate_to_int16_range :
    (∀ x : ℚ, sampleToInt16 x =
        ratTrunc (if clampSample x < 0 then clampSample x * 32768
            else clampSample x * 32767)) ∧
    (∀ x : ℚ, -32768 ≤ sampleToInt16 x ∧ sampleToInt16 x ≤ 32767) ∧
    (∀ x : ℚ, 1 ≤ x → sampleToInt16 x = 32767) ∧
    (∀ x : ℚ, x ≤ -1 → sampleToInt16 x = -32768) ∧
    (∀ xs : List ℚ, ∀ v ∈ float32ToInt16 xs,
        -32768 ≤ v ∧ v ≤ 32767) := by
  have hnowrap : ∀ x : ℚ, sampleToInt16 x =
      ratTrunc (if clampSample x < 0 then clampSample x * 32768
          else clampSample x * 32767) := by
    intro x
    exact toInt16_eq_self (scaled_sample_bounds x).1 (scaled_sample_bounds x).2
  have hbounds : ∀ x : ℚ, -32768 ≤ sampleToInt16 x ∧
      sampleToInt16 x ≤ 32767 := by
    intro x
    rw [hnowrap x]
    exact scaled_sample_bounds x
  refine ⟨hnowrap, hbounds, ?_, ?_, ?_⟩
  · intro x hx
    have hc : clampSample x = 1 := by
      unfold clampSample
      rw [min_eq_left hx, max_eq_right (by norm_num)]
    rw [hnowrap x, hc]
    norm_num [ratTrunc, floor_int16_top]
  · intro x hx
    have hc : clampSample x = -1 := by
      unfold clampSample
      rw [min_eq_right (hx.trans (by norm_num)), max_eq_left hx]
    rw [hnowrap x, hc]
    norm_num [ratTrunc, ceil_neg_thirtytwo_k]
  · intro xs v hv
    obtain ⟨x, _, hxv⟩ := List.mem_map.mp hv
    exact hxv ▸ hbounds x

theorem float32_samples_saturate_to_int16_range_witness :
    ((1 : ℚ) ≤ 2 ∧ sampleToInt16 2 = 32767) ∧
    ((-(3 / 2) : ℚ) ≤ -1 ∧ sampleToInt16 (-(3 / 2)) = -32768) := by
  exact ⟨⟨by norm_num,
      float32_samples_saturate_to_int16_range.2.2.1 2 (by norm_num)⟩,
    ⟨by norm_num,
      float32_samples_saturate_to_int16_range.2.2.2.1 (-(3 / 2))
        (by norm_num)⟩⟩

end VoicePipeline
